import Mathlib

/-!
Shallow embedding of the royalwings order/booking lifecycle core.

Sources embedded (TypeScript):
- src/client/src/contexts/AuthContext.tsx (cart part): TAX_RATE,
  calculateCartTotals, cartReducer, initialCart
- src/client/src/services/orderService.ts: createOrder, updateOrderStatus,
  updatePaymentStatus, cancelOrder
- src/client/src/services/bookingService.ts (src/unnamed/part_005):
  updateBookingStatus, updatePaymentStatus, updatePastBookings
- src/client/src/services/menuService.ts: updateMenuItemStock, decreaseStock

Modelling conventions: JavaScript numbers are embedded as exact rationals
(prices, money) or integers (quantities, stock counts); Firestore Timestamps
and Dates as natural numbers; a Firestore document update `updateDoc(ref, m)`
as a record update that overwrites exactly the fields in `m`; collections as
lists. Randomness (`Math.random` in the pickup code) and the ambient clock
(`new Date()` / `Timestamp.now()`) are passed in as explicit parameters.
-/

namespace RoyalWings

/-- OrderStatus from src/client/src/types/order.ts. -/
inductive OrderStatus where
  | pending
  | preparing
  | ready
  | completed
  | cancelled
deriving DecidableEq, Repr

/-- PaymentStatus from src/client/src/types/order.ts (same in types/booking.ts). -/
inductive PaymentStatus where
  | unpaid
  | paid
  | failed
deriving DecidableEq, Repr

/-- BookingStatus from src/client/src/types/booking.ts (the six-state model). -/
inductive BookingStatus where
  | pending_reservation
  | unpaid_reservation
  | paid_reservation
  | past_reservation
  | declined_reservation
  | cancelled_reservation
deriving DecidableEq, Repr

/-- PaymentInfo from the types files. `paymentIntentId` is optional in the
booking type and absent until set in practice, so it is an `Option` here;
`paidAt?` likewise. -/
structure PaymentInfo where
  paymentIntentId : Option String
  status : PaymentStatus
  paidAt : Option Nat
  amount : ℚ
deriving DecidableEq, Repr

/-- MenuItem from src/client/src/types/menu.ts, restricted to the fields the
lifecycle core reads (imageUrl / featured / flavors are never consulted by the
cart, order, or stock logic embedded here). -/
structure MenuItem where
  id : String
  name : String
  description : String
  price : ℚ
  category : String
  available : Bool
  stockCount : Int
deriving DecidableEq, Repr

/-- CartItem from src/client/src/types/cart.ts. The reducer always stores a
string for `notes` (default `''`), so `notes` is a plain `String`. -/
structure CartItem where
  id : String
  menuItem : MenuItem
  quantity : Int
  notes : String
  selectedFlavor : Option String
deriving DecidableEq, Repr

/-- Cart from src/client/src/types/cart.ts. -/
structure Cart where
  items : List CartItem
  subtotal : ℚ
  tax : ℚ
  total : ℚ
deriving DecidableEq, Repr

/-- TAX_RATE from src/client/src/contexts/AuthContext.tsx line 131 (0.12). -/
def TAX_RATE : ℚ := 12 / 100

/-- Result triple of calculateCartTotals. -/
structure CartTotals where
  subtotal : ℚ
  tax : ℚ
  total : ℚ
deriving DecidableEq, Repr

/-- calculateCartTotals from AuthContext.tsx lines 140-145:
subtotal = Σ price * quantity (a reduce), tax = subtotal * TAX_RATE (no
rounding in the source), total = subtotal + tax. -/
def calculateCartTotals (items : List CartItem) : CartTotals :=
  let subtotal := items.foldl (fun sum item => sum + item.menuItem.price * (item.quantity : ℚ)) 0
  let tax := subtotal * TAX_RATE
  let total := subtotal + tax
  ⟨subtotal, tax, total⟩

/-- CartAction from AuthContext.tsx lines 133-138. The reducer applies the
defaults quantity=1, notes='' when the payload omits them; callers of the
embedding pass them explicitly. -/
inductive CartAction where
  | addItem (menuItem : MenuItem) (quantity : Int) (notes : String) (selectedFlavor : Option String)
  | removeItem (itemId : String)
  | updateQuantity (itemId : String) (quantity : Int)
  | updateNotes (itemId : String) (notes : String)
  | clearCart
deriving DecidableEq, Repr

/-- Composite cart-line key from the ADD_ITEM case: selectedFlavor present
gives menuItem.id ++ "_" ++ selectedFlavor, else menuItem.id. -/
def mkItemId (menuItem : MenuItem) (selectedFlavor : Option String) : String :=
  match selectedFlavor with
  | some f => menuItem.id ++ "_" ++ f
  | none => menuItem.id

/-- JavaScript Array.prototype.findIndex, as an Option-valued first-match
index (the source only tests the result against >= 0). -/
def findIndex (p : α → Bool) : List α → Option Nat
  | [] => none
  | x :: xs => if p x then some 0 else (findIndex p xs).map (· + 1)

/-- Update of the single position i of a list, mirroring the source's
map over (item, index) pairs that rewrites only index === i. -/
def mapAtIdx : List α → Nat → (α → α) → List α
  | [], _, _ => []
  | x :: xs, 0, f => f x :: xs
  | x :: xs, Nat.succ i, f => x :: mapAtIdx xs i f

/-- cartReducer from AuthContext.tsx lines 147-255, case by case. -/
def cartReducer (state : Cart) (action : CartAction) : Cart :=
  match action with
  | .addItem menuItem quantity notes selectedFlavor =>
    let itemId := mkItemId menuItem selectedFlavor
    let existingQuantityInCart :=
      match state.items.find? (fun item => decide (item.id = itemId)) with
      | some item => item.quantity
      | none => 0
    let availableStock := menuItem.stockCount - existingQuantityInCart
    if quantity > availableStock then
      state
    else
      let newItems :=
        match findIndex (fun item => decide (item.id = itemId)) state.items with
        | some i =>
          mapAtIdx state.items i (fun item => { item with quantity := item.quantity + quantity })
        | none =>
          state.items ++ [{ id := itemId, menuItem := menuItem, quantity := quantity,
                            notes := notes, selectedFlavor := selectedFlavor }]
      let t := calculateCartTotals newItems
      { items := newItems, subtotal := t.subtotal, tax := t.tax, total := t.total }
  | .removeItem itemId =>
    let newItems := state.items.filter (fun item => decide (¬ item.id = itemId))
    let t := calculateCartTotals newItems
    { items := newItems, subtotal := t.subtotal, tax := t.tax, total := t.total }
  | .updateQuantity itemId quantity =>
    match state.items.find? (fun item => decide (item.id = itemId)) with
    | none => state
    | some cartItem =>
      let availableStock := cartItem.menuItem.stockCount
      if quantity > availableStock then
        state
      else if quantity ≤ 0 then
        let newItems := state.items.filter (fun item => decide (¬ item.id = itemId))
        let t := calculateCartTotals newItems
        { items := newItems, subtotal := t.subtotal, tax := t.tax, total := t.total }
      else
        let newItems := state.items.map (fun item =>
          if item.id = itemId then { item with quantity := quantity } else item)
        let t := calculateCartTotals newItems
        { items := newItems, subtotal := t.subtotal, tax := t.tax, total := t.total }
  | .updateNotes itemId notes =>
    let newItems := state.items.map (fun item =>
      if item.id = itemId then { item with notes := notes } else item)
    let t := calculateCartTotals newItems
    { items := newItems, subtotal := t.subtotal, tax := t.tax, total := t.total }
  | .clearCart =>
    { items := [], subtotal := 0, tax := 0, total := 0 }

/-- initialCart from AuthContext.tsx lines 257-262. -/
def initialCart : Cart := { items := [], subtotal := 0, tax := 0, total := 0 }

/-- Folding a sequence of dispatched actions through the reducer. -/
def runCart (c : Cart) (acts : List CartAction) : Cart :=
  acts.foldl cartReducer c

/-- Snapshot of the menuItem fields copied into an order line by createOrder
(orderService.ts lines 26-33): id, name, description, price, category,
available — stockCount is not copied. -/
structure MenuItemSnapshot where
  id : String
  name : String
  description : String
  price : ℚ
  category : String
  available : Bool
deriving DecidableEq, Repr

/-- Cleaned order line built by createOrder (orderService.ts lines 23-43). -/
structure CleanedItem where
  id : String
  menuItem : MenuItemSnapshot
  quantity : Int
  notes : String
  selectedFlavor : Option String
deriving DecidableEq, Repr

/-- OrderFormData from src/client/src/types/order.ts. -/
structure OrderFormData where
  items : List CartItem
  subtotal : ℚ
  tax : ℚ
  total : ℚ
  notes : Option String
deriving DecidableEq, Repr

/-- Order document as written by createOrder (the Firestore doc id is
assigned by addDoc and lives outside the record, as in the source's
Omit Order id). -/
structure OrderRecord where
  items : List CleanedItem
  subtotal : ℚ
  tax : ℚ
  total : ℚ
  userId : String
  userEmail : String
  pickupCode : String
  status : OrderStatus
  notes : String
  payment : PaymentInfo
  createdAt : Nat
  updatedAt : Nat
deriving DecidableEq, Repr

/-- The two Firestore collections the stock and order claims touch:
menuItems as an id-to-stockCount association list (the only menuItem field
the embedded operations read or write), and the orders collection. -/
structure AppDB where
  menuItems : List (String × Int)
  orders : List OrderRecord
deriving DecidableEq, Repr

namespace orderService

/-- The per-line cleaning step of createOrder (orderService.ts lines 23-43):
copies the listed menuItem fields, defaults notes to '', keeps
selectedFlavor only when present. -/
def cleanItem (item : CartItem) : CleanedItem :=
  { id := item.id
    menuItem :=
      { id := item.menuItem.id
        name := item.menuItem.name
        description := item.menuItem.description
        price := item.menuItem.price
        category := item.menuItem.category
        available := item.menuItem.available }
    quantity := item.quantity
    notes := item.notes
    selectedFlavor := item.selectedFlavor }

/-- createOrder (orderService.ts lines 19-73). The source draws the pickup
code from Math.random and the timestamps from new Date(); both are explicit
parameters here. It builds the cleaned items, writes one new order document
(status pending, payment unpaid with the passed paymentIntentId and
amount = orderData.total), and performs no other read or write: in
particular it never touches the menuItems collection. -/
def createOrder (db : AppDB) (orderData : OrderFormData)
    (userId userEmail paymentIntentId pickupCode : String) (now : Nat) :
    AppDB × OrderRecord :=
  let cleanedItems := orderData.items.map cleanItem
  let order : OrderRecord :=
    { items := cleanedItems
      subtotal := orderData.subtotal
      tax := orderData.tax
      total := orderData.total
      userId := userId
      userEmail := userEmail
      pickupCode := pickupCode
      status := .pending
      notes := orderData.notes.getD ""
      payment :=
        { paymentIntentId := some paymentIntentId
          status := .unpaid
          paidAt := none
          amount := orderData.total }
      createdAt := now
      updatedAt := now }
  ({ db with orders := db.orders ++ [order] }, order)

/-- updateOrderStatus (orderService.ts lines 75-86): writes the requested
status and updatedAt, with no validation of the current status. -/
def updateOrderStatus (o : OrderRecord) (status : OrderStatus) (now : Nat) : OrderRecord :=
  { o with status := status, updatedAt := now }

/-- updatePaymentStatus (orderService.ts lines 88-111): always writes
payment.status and updatedAt; writes payment.paymentIntentId when one is
provided; when the new status is paid additionally writes payment.paidAt
and sets status to preparing — all without reading the current
payment.status. -/
def updatePaymentStatus (o : OrderRecord) (paymentStatus : PaymentStatus)
    (paymentIntentId : Option String) (now : Nat) : OrderRecord :=
  let payment0 := { o.payment with status := paymentStatus }
  let payment1 :=
    match paymentIntentId with
    | some pid => { payment0 with paymentIntentId := some pid }
    | none => payment0
  if paymentStatus = .paid then
    { o with payment := { payment1 with paidAt := some now }
             status := .preparing
             updatedAt := now }
  else
    { o with payment := payment1, updatedAt := now }

/-- cancelOrder (orderService.ts lines 231-248): a non-admin caller is
rejected unless the order is pending (the thrown message is the error
value); otherwise status becomes cancelled. -/
def cancelOrder (o : OrderRecord) (isAdmin : Bool) (now : Nat) :
    Except String OrderRecord :=
  if ¬ isAdmin ∧ ¬ o.status = .pending then
    .error "Only pending orders can be cancelled by users"
  else
    .ok { o with status := .cancelled, updatedAt := now }

end orderService

/-- Booking document per src/client/src/types/booking.ts (six-state model).
The payment sub-record is materialised with the unpaid/RESERVATION_FEE
default the services apply when it is absent. -/
structure BookingRecord where
  id : String
  userId : String
  userName : String
  date : Nat
  time : String
  numberOfPeople : Int
  specialRequests : Option String
  status : BookingStatus
  reservationFee : ℚ
  payment : PaymentInfo
  createdAt : Nat
  updatedAt : Nat
deriving DecidableEq, Repr

namespace bookingService

/-- updateBookingStatus (bookingService.ts lines 78-84): writes exactly the
status and updatedAt fields. -/
def updateBookingStatus (b : BookingRecord) (status : BookingStatus) (now : Nat) :
    BookingRecord :=
  { b with status := status, updatedAt := now }

/-- updatePaymentStatus (bookingService.ts lines 86-103): same shape as the
order version, except a paid result sets status to paid_reservation. -/
def updatePaymentStatus (b : BookingRecord) (paymentStatus : PaymentStatus)
    (paymentIntentId : Option String) (now : Nat) : BookingRecord :=
  let payment0 := { b.payment with status := paymentStatus }
  let payment1 :=
    match paymentIntentId with
    | some pid => { payment0 with paymentIntentId := some pid }
    | none => payment0
  if paymentStatus = .paid then
    { b with payment := { payment1 with paidAt := some now }
             status := .paid_reservation
             updatedAt := now }
  else
    { b with payment := payment1, updatedAt := now }

/-- updatePastBookings (bookingService.ts lines 131-148): the source loads
all bookings, keeps those whose status is paid_reservation or
cancelled_reservation and whose date <= now, re-filters status !==
past_reservation, and runs updateBookingStatus(id, past_reservation) on each
of the selected rows; non-selected rows are untouched. Here that per-row
effect is a pointwise map over the collection. -/
def updatePastBookings (now : Nat) (allBookings : List BookingRecord) :
    List BookingRecord :=
  allBookings.map (fun booking =>
    if ((booking.status = .paid_reservation ∨ booking.status = .cancelled_reservation) ∧
          booking.date ≤ now) ∧
        ¬ booking.status = .past_reservation then
      updateBookingStatus booking .past_reservation now
    else
      booking)

end bookingService

namespace menuService

/-- updateMenuItemStock (menuService.ts lines 77-86): writes the given
stockCount to the document with the given id, unvalidated. -/
def updateMenuItemStock (catalog : List (String × Int)) (id : String)
    (stockCount : Int) : List (String × Int) :=
  catalog.map (fun p => if p.1 = id then (p.1, stockCount) else p)

/-- decreaseStock (menuService.ts lines 88-111): returns silently when the
document does not exist; otherwise reads the current stockCount, computes
max(0, currentStock - quantity), and writes it back. No error is ever
signalled for insufficient stock. -/
def decreaseStock (catalog : List (String × Int)) (id : String)
    (quantity : Int) : List (String × Int) :=
  match catalog.find? (fun p => decide (p.1 = id)) with
  | none => catalog
  | some p =>
    let currentStock := p.2
    let newStock := max 0 (currentStock - quantity)
    catalog.map (fun q => if q.1 = id then (q.1, newStock) else q)

end menuService

/-- One stock-mutating operation: a checkout-time decrement
(menuService.decreaseStock) or a staff stock update
(menuService.updateMenuItemStock). -/
inductive StockOp where
  | dec (id : String) (quantity : Int)
  | upd (id : String) (stockCount : Int)
deriving DecidableEq, Repr

/-- Application of one stock operation to the menuItems collection. -/
def applyStockOp (catalog : List (String × Int)) : StockOp → List (String × Int)
  | .dec id quantity => menuService.decreaseStock catalog id quantity
  | .upd id stockCount => menuService.updateMenuItemStock catalog id stockCount

/-- Folding a sequence of stock operations over the collection. -/
def runStockOps (catalog : List (String × Int)) (ops : List StockOp) :
    List (String × Int) :=
  ops.foldl applyStockOp catalog

/-! Concrete fixtures used by counterexamples and witnesses. -/

/-- A menu item with five units in stock. -/
def wingsItem : MenuItem :=
  { id := "wings", name := "Wings", description := "Buffalo wings", price := 150,
    category := "Meals", available := true, stockCount := 5 }

/-- A menu item whose price makes subtotal * TAX_RATE a non-integer number of
centavos. -/
def mintItem : MenuItem :=
  { id := "mint", name := "Mint", description := "One mint", price := 1 / 20,
    category := "Extras", available := true, stockCount := 10 }

/-- A cart line of two wings. -/
def wingsCartLine : CartItem :=
  { id := "wings", menuItem := wingsItem, quantity := 2, notes := "",
    selectedFlavor := none }

/-- A submitted cart snapshot of two wings. -/
def orderDataA : OrderFormData :=
  { items := [wingsCartLine], subtotal := 300, tax := 36, total := 336,
    notes := none }

/-- A database holding five wings in stock and no orders. -/
def dbA : AppDB := { menuItems := [("wings", 5)], orders := [] }

/-- An order in pending status with unpaid payment. -/
def pendingOrderA : OrderRecord :=
  { items := [], subtotal := 300, tax := 36, total := 336, userId := "u1",
    userEmail := "u1@example.com", pickupCode := "RW-AAAA", status := .pending,
    notes := "",
    payment := { paymentIntentId := some "pending-1", status := .unpaid,
                 paidAt := none, amount := 336 },
    createdAt := 0, updatedAt := 0 }

/-- An order in the terminal completed status. -/
def completedOrderA : OrderRecord := { pendingOrderA with status := .completed }

/-- A booking whose reservation fee has been paid. -/
def paidBookingA : BookingRecord :=
  { id := "b1", userId := "u1", userName := "Sam", date := 10, time := "18:00",
    numberOfPeople := 4, specialRequests := none, status := .paid_reservation,
    reservationFee := 100,
    payment := { paymentIntentId := some "pi_1", status := .paid,
                 paidAt := some 5, amount := 100 },
    createdAt := 0, updatedAt := 5 }

/-- An approved booking awaiting payment. -/
def unpaidBookingA : BookingRecord :=
  { paidBookingA with
    status := .unpaid_reservation
    payment := { paymentIntentId := none, status := .unpaid, paidAt := none,
                 amount := 100 } }

/-! Claim theorems. -/

/-- Claim C5: applying a succeeded payment result sets payment.status = paid,
sets payment.paidAt, and records the gateway reference; for an Order it
additionally advances status from pending to preparing, and for a Booking it
additionally advances status from unpaid_reservation to paid_reservation;
applying a failed result sets payment.status = failed and leaves status
unchanged. -/
theorem applyResult_succeeded_failed_effects (o : OrderRecord) (b : BookingRecord)
    (pid : String) (now : Nat) :
    (o.status = .pending →
      (orderService.updatePaymentStatus o .paid (some pid) now).payment.status = .paid ∧
      (orderService.updatePaymentStatus o .paid (some pid) now).payment.paidAt = some now ∧
      (orderService.updatePaymentStatus o .paid (some pid) now).payment.paymentIntentId = some pid ∧
      (orderService.updatePaymentStatus o .paid (some pid) now).status = .preparing) ∧
    ((orderService.updatePaymentStatus o .failed (some pid) now).payment.status = .failed ∧
     (orderService.updatePaymentStatus o .failed (some pid) now).status = o.status) ∧
    (b.status = .unpaid_reservation →
      (bookingService.updatePaymentStatus b .paid (some pid) now).payment.status = .paid ∧
      (bookingService.updatePaymentStatus b .paid (some pid) now).payment.paidAt = some now ∧
      (bookingService.updatePaymentStatus b .paid (some pid) now).payment.paymentIntentId = some pid ∧
      (bookingService.updatePaymentStatus b .paid (some pid) now).status = .paid_reservation) ∧
    ((bookingService.updatePaymentStatus b .failed (some pid) now).payment.status = .failed ∧
     (bookingService.updatePaymentStatus b .failed (some pid) now).status = b.status) := by
  refine ⟨fun _ => ?_, ?_, fun _ => ?_, ?_⟩ <;>
    simp [orderService.updatePaymentStatus, bookingService.updatePaymentStatus]

/-- Witness for C5 at a pending order and an approved booking. -/
theorem applyResult_succeeded_failed_effects_witness :
    pendingOrderA.status = .pending ∧ unpaidBookingA.status = .unpaid_reservation ∧
    (orderService.updatePaymentStatus pendingOrderA .paid (some "pi_9") 3).status = .preparing ∧
    (bookingService.updatePaymentStatus unpaidBookingA .paid (some "pi_9") 3).status = .paid_reservation :=
  ⟨rfl, rfl,
    ((applyResult_succeeded_failed_effects pendingOrderA unpaidBookingA "pi_9" 3).1 rfl).2.2.2,
    ((applyResult_succeeded_failed_effects pendingOrderA unpaidBookingA "pi_9" 3).2.2.1 rfl).2.2.2⟩

/-- Claim C8: cancelling a paid booking sets status = cancelled_reservation
and leaves the payment sub-record (still paid, paidAt and amount intact) and
every other field except updatedAt unchanged. -/
theorem booking_cancel_after_payment_frame (b : BookingRecord) (now : Nat)
    (hpaid : b.payment.status = .paid) :
    (bookingService.updateBookingStatus b .cancelled_reservation now).status = .cancelled_reservation ∧
    (bookingService.updateBookingStatus b .cancelled_reservation now).payment = b.payment ∧
    (bookingService.updateBookingStatus b .cancelled_reservation now).payment.status = .paid ∧
    (bookingService.updateBookingStatus b .cancelled_reservation now).payment.paidAt = b.payment.paidAt ∧
    (bookingService.updateBookingStatus b .cancelled_reservation now).payment.amount = b.payment.amount ∧
    (bookingService.updateBookingStatus b .cancelled_reservation now).id = b.id ∧
    (bookingService.updateBookingStatus b .cancelled_reservation now).userId = b.userId ∧
    (bookingService.updateBookingStatus b .cancelled_reservation now).userName = b.userName ∧
    (bookingService.updateBookingStatus b .cancelled_reservation now).date = b.date ∧
    (bookingService.updateBookingStatus b .cancelled_reservation now).time = b.time ∧
    (bookingService.updateBookingStatus b .cancelled_reservation now).numberOfPeople = b.numberOfPeople ∧
    (bookingService.updateBookingStatus b .cancelled_reservation now).specialRequests = b.specialRequests ∧
    (bookingService.updateBookingStatus b .cancelled_reservation now).reservationFee = b.reservationFee ∧
    (bookingService.updateBookingStatus b .cancelled_reservation now).createdAt = b.createdAt ∧
    (bookingService.updateBookingStatus b .cancelled_reservation now).updatedAt = now := by
  simp [bookingService.updateBookingStatus, hpaid]

/-- Witness for C8 at a concrete paid booking. -/
theorem booking_cancel_after_payment_frame_witness :
    paidBookingA.payment.status = .paid ∧
    (bookingService.updateBookingStatus paidBookingA .cancelled_reservation 7).status = .cancelled_reservation ∧
    (bookingService.updateBookingStatus paidBookingA .cancelled_reservation 7).payment = paidBookingA.payment :=
  ⟨rfl, (booking_cancel_after_payment_frame paidBookingA 7 rfl).1,
    (booking_cancel_after_payment_frame paidBookingA 7 rfl).2.1⟩

/-- Claim C10: decreaseStock never signals insufficiency: on a present id it
writes max(0, currentStock - quantity), clamping silently, and on a missing
id it returns with the collection untouched (the embedded function is total,
with no error outcome). -/
theorem decreaseStock_clamps_and_is_silent (catalog : List (String × Int))
    (id : String) (quantity : Int) :
    (catalog.find? (fun p => decide (p.1 = id)) = none →
      menuService.decreaseStock catalog id quantity = catalog) ∧
    (∀ s, catalog.find? (fun p => decide (p.1 = id)) = some s →
      ∀ p ∈ menuService.decreaseStock catalog id quantity,
        (p.1 = id → p.2 = max 0 (s.2 - quantity)) ∧ (¬ p.1 = id → p ∈ catalog)) := by
  constructor
  · intro hnone
    simp [menuService.decreaseStock, hnone]
  · intro s hs p hp
    simp only [menuService.decreaseStock, hs] at hp
    rcases List.mem_map.1 hp with ⟨q, hq, hpq⟩
    by_cases hid : q.1 = id
    · have hpq2 : p = (id, max 0 (s.2 - quantity)) := by
        simp [hid] at hpq
        exact hpq.symm
      refine ⟨fun _ => by simp [hpq2], fun hne => absurd ?_ hne⟩
      simp [hpq2]
    · simp [hid] at hpq
      subst hpq
      exact ⟨fun h => absurd h hid, fun _ => hq⟩

/-- Witness for C10 at a one-item catalog with a decrement past zero. -/
theorem decreaseStock_clamps_and_is_silent_witness :
    ([("wings", (5 : Int))].find? (fun p => decide (p.1 = "wings")) = some ("wings", 5)) ∧
    ∀ p ∈ menuService.decreaseStock [("wings", (5 : Int))] "wings" 7,
      (p.1 = "wings" → p.2 = max 0 ((5 : Int) - 7)) ∧
      (¬ p.1 = "wings" → p ∈ [("wings", (5 : Int))]) :=
  ⟨by decide, fun p hp =>
    (decreaseStock_clamps_and_is_silent [("wings", (5 : Int))] "wings" 7).2
      ("wings", 5) (by decide) p hp⟩

/-- Claim C1 counterexample: createOrder on a cart of two wings against a
five-unit stock succeeds (the created order is pending) yet leaves the
menuItems collection at five units — the claim's required decrement to three
(and its InsufficientStock failure channel) does not exist in the code. -/
theorem createOrder_ignores_stock_cex :
    (orderService.createOrder dbA orderDataA "u1" "u1@example.com" "pi_1" "RW-AAAA" 0).2.status = .pending ∧
    (orderService.createOrder dbA orderDataA "u1" "u1@example.com" "pi_1" "RW-AAAA" 0).1.menuItems = [("wings", 5)] ∧
    ¬ [("wings", (5 : Int))] = [("wings", 3)] := by
  decide

/-- Claim C1 amended: createOrder performs no stock re-validation and no
stock decrement; it unconditionally appends one new order (status pending,
payment unpaid, amount = the submitted total, paidAt unset) and leaves the
menuItems collection untouched. -/
theorem createOrder_no_stock_effects (db : AppDB) (d : OrderFormData)
    (uid email pid code : String) (now : Nat) :
    (orderService.createOrder db d uid email pid code now).1.menuItems = db.menuItems ∧
    (orderService.createOrder db d uid email pid code now).1.orders =
      db.orders ++ [(orderService.createOrder db d uid email pid code now).2] ∧
    (orderService.createOrder db d uid email pid code now).2.status = .pending ∧
    (orderService.createOrder db d uid email pid code now).2.payment.status = .unpaid ∧
    (orderService.createOrder db d uid email pid code now).2.payment.amount = d.total ∧
    (orderService.createOrder db d uid email pid code now).2.payment.paidAt = none ∧
    (orderService.createOrder db d uid email pid code now).2.pickupCode = code := by
  simp [orderService.createOrder]

/-- Claim C2 counterexample: applying a succeeded payment result twice in a
row (at times 0 and 1) leaves the order in a different state than applying
it once — payment.paidAt and updatedAt are overwritten, because the
implementation never checks the current payment.status before mutating. -/
theorem applyResult_twice_differs_cex :
    ¬ orderService.updatePaymentStatus
        (orderService.updatePaymentStatus pendingOrderA .paid (some "pi_1") 0)
        .paid (some "pi_1") 1
      = orderService.updatePaymentStatus pendingOrderA .paid (some "pi_1") 0 := by
  decide

/-- Claim C2 amended: applying a succeeded result twice agrees with applying
it once on status, payment.status, the recorded gateway reference, and the
amount, but overwrites payment.paidAt and updatedAt with the later time (the
implementation does not consult the current payment.status); applying a
failed result after a succeeded one sets payment.status to failed — not back
to unpaid — and leaves the (already advanced) status unchanged. Both
subject kinds behave alike. -/
theorem applyResult_idempotent_on_statuses (o : OrderRecord) (b : BookingRecord)
    (ref : Option String) (t1 t2 : Nat) :
    ((orderService.updatePaymentStatus (orderService.updatePaymentStatus o .paid ref t1) .paid ref t2).status =
        (orderService.updatePaymentStatus o .paid ref t1).status ∧
      (orderService.updatePaymentStatus (orderService.updatePaymentStatus o .paid ref t1) .paid ref t2).payment.status =
        (orderService.updatePaymentStatus o .paid ref t1).payment.status ∧
      (orderService.updatePaymentStatus (orderService.updatePaymentStatus o .paid ref t1) .paid ref t2).payment.paymentIntentId =
        (orderService.updatePaymentStatus o .paid ref t1).payment.paymentIntentId ∧
      (orderService.updatePaymentStatus (orderService.updatePaymentStatus o .paid ref t1) .paid ref t2).payment.amount =
        (orderService.updatePaymentStatus o .paid ref t1).payment.amount ∧
      (orderService.updatePaymentStatus (orderService.updatePaymentStatus o .paid ref t1) .paid ref t2).payment.paidAt = some t2 ∧
      (orderService.updatePaymentStatus (orderService.updatePaymentStatus o .paid ref t1) .paid ref t2).updatedAt = t2) ∧
    ((orderService.updatePaymentStatus (orderService.updatePaymentStatus o .paid ref t1) .failed ref t2).payment.status = .failed ∧
      ¬ (orderService.updatePaymentStatus (orderService.updatePaymentStatus o .paid ref t1) .failed ref t2).payment.status = .unpaid ∧
      (orderService.updatePaymentStatus (orderService.updatePaymentStatus o .paid ref t1) .failed ref t2).status =
        (orderService.updatePaymentStatus o .paid ref t1).status) ∧
    ((bookingService.updatePaymentStatus (bookingService.updatePaymentStatus b .paid ref t1) .paid ref t2).status =
        (bookingService.updatePaymentStatus b .paid ref t1).status ∧
      (bookingService.updatePaymentStatus (bookingService.updatePaymentStatus b .paid ref t1) .paid ref t2).payment.status =
        (bookingService.updatePaymentStatus b .paid ref t1).payment.status ∧
      (bookingService.updatePaymentStatus (bookingService.updatePaymentStatus b .paid ref t1) .paid ref t2).payment.paymentIntentId =
        (bookingService.updatePaymentStatus b .paid ref t1).payment.paymentIntentId ∧
      (bookingService.updatePaymentStatus (bookingService.updatePaymentStatus b .paid ref t1) .paid ref t2).payment.paidAt = some t2) ∧
    ((bookingService.updatePaymentStatus (bookingService.updatePaymentStatus b .paid ref t1) .failed ref t2).payment.status = .failed ∧
      ¬ (bookingService.updatePaymentStatus (bookingService.updatePaymentStatus b .paid ref t1) .failed ref t2).payment.status = .unpaid ∧
      (bookingService.updatePaymentStatus (bookingService.updatePaymentStatus b .paid ref t1) .failed ref t2).status =
        (bookingService.updatePaymentStatus b .paid ref t1).status) := by
  rcases ref with _ | pid <;>
    simp [orderService.updatePaymentStatus, bookingService.updatePaymentStatus]

/-- Claim C3 counterexample: updateOrderStatus on a completed order with the
requested status preparing succeeds and sets status = preparing — there is no
InvalidStateTransition failure and the order does not remain completed. -/
theorem updateStatus_out_of_terminal_cex :
    (orderService.updateOrderStatus completedOrderA .preparing 5).status = .preparing ∧
    ¬ (orderService.updateOrderStatus completedOrderA .preparing 5).status = .completed := by
  decide

/-- Claim C3 amended: updateOrderStatus performs no transition validation —
it writes any requested status (terminal source states included), leaving the
payment sub-record unchanged; the only guarded transition is the
customer-initiated cancel, which fails (leaving the order untouched) unless
the order is pending, while a staff cancel succeeds from any state. -/
theorem updateStatus_unvalidated_cancel_guarded (o : OrderRecord)
    (s : OrderStatus) (now : Nat) :
    ((orderService.updateOrderStatus o s now).status = s ∧
      (orderService.updateOrderStatus o s now).payment = o.payment) ∧
    (¬ o.status = .pending →
      orderService.cancelOrder o false now =
        .error "Only pending orders can be cancelled by users") ∧
    (o.status = .pending →
      orderService.cancelOrder o false now =
        .ok { o with status := .cancelled, updatedAt := now }) ∧
    (orderService.cancelOrder o true now =
      .ok { o with status := .cancelled, updatedAt := now }) := by
  refine ⟨⟨rfl, rfl⟩, fun hnp => ?_, fun hp => ?_, ?_⟩ <;>
    simp [orderService.cancelOrder, *]

/-- Witness for the amended C3 at a completed order: the customer cancel is
rejected there, while the staff cancel goes through. -/
theorem updateStatus_unvalidated_cancel_guarded_witness :
    (¬ completedOrderA.status = .pending) ∧
    orderService.cancelOrder completedOrderA false 9 =
      .error "Only pending orders can be cancelled by users" ∧
    orderService.cancelOrder completedOrderA true 9 =
      .ok { completedOrderA with status := .cancelled, updatedAt := 9 } :=
  ⟨by decide,
    (updateStatus_unvalidated_cancel_guarded completedOrderA .preparing 9).2.1 (by decide),
    (updateStatus_unvalidated_cancel_guarded completedOrderA .preparing 9).2.2.2⟩

/-- Length is preserved by the past-bookings sweep. -/
theorem length_updatePastBookings (now : Nat) (bs : List BookingRecord) :
    (bookingService.updatePastBookings now bs).length = bs.length := by
  simp [bookingService.updatePastBookings]

/-- Claim C9: the past-bookings sweep moves exactly the bookings with
date <= now and status paid_reservation or cancelled_reservation (none of
which are already past_reservation) to past_reservation, leaves every other
booking untouched, and is idempotent for a fixed now: sweeping twice equals
sweeping once. -/
theorem sweep_exact_and_idempotent (now : Nat) (bs : List BookingRecord)
    (i : Nat) (b : BookingRecord) (hb : bs[i]? = some b) :
    bookingService.updatePastBookings now (bookingService.updatePastBookings now bs) =
      bookingService.updatePastBookings now bs ∧
    ∃ b2, (bookingService.updatePastBookings now bs)[i]? = some b2 ∧
      (b2.status = .past_reservation ↔
        (b.status = .past_reservation ∨
          ((b.status = .paid_reservation ∨ b.status = .cancelled_reservation) ∧
            b.date ≤ now))) ∧
      (((b.status = .paid_reservation ∨ b.status = .cancelled_reservation) ∧
          b.date ≤ now) →
        b2 = { b with status := .past_reservation, updatedAt := now }) ∧
      (¬ ((b.status = .paid_reservation ∨ b.status = .cancelled_reservation) ∧
          b.date ≤ now) →
        b2 = b) := by
  constructor
  · unfold bookingService.updatePastBookings
    rw [List.map_map]
    apply List.map_congr_left
    intro x _
    by_cases hx : ((x.status = .paid_reservation ∨ x.status = .cancelled_reservation) ∧
        x.date ≤ now) ∧ ¬ x.status = .past_reservation
    · simp only [Function.comp_apply, hx, if_pos]
      simp [bookingService.updateBookingStatus]
    · simp only [Function.comp_apply, hx, if_neg]
      simp [hx]
  · refine ⟨if ((b.status = .paid_reservation ∨ b.status = .cancelled_reservation) ∧
        b.date ≤ now) ∧ ¬ b.status = .past_reservation then
        bookingService.updateBookingStatus b .past_reservation now else b,
      ?_, ?_, ?_, ?_⟩
    · simp [bookingService.updatePastBookings, List.getElem?_map, hb]
    · by_cases hcond : ((b.status = .paid_reservation ∨ b.status = .cancelled_reservation) ∧
          b.date ≤ now) ∧ ¬ b.status = .past_reservation
      · simp [hcond, bookingService.updateBookingStatus]
      · rw [if_neg hcond]
        by_cases hpast : b.status = .past_reservation
        · simp [hpast]
        · have hnc : ¬ ((b.status = .paid_reservation ∨ b.status = .cancelled_reservation) ∧
              b.date ≤ now) := fun hc => hcond ⟨hc, hpast⟩
          simp [hpast, hnc]
    · intro hcond
      have hnp : ¬ b.status = .past_reservation := by
        rcases hcond.1 with h1 | h1 <;> simp [h1]
      simp [hcond, hnp, bookingService.updateBookingStatus]
    · intro hcond
      simp [hcond]

/-- Witness for C9 at a two-element dataset holding one due paid booking. -/
theorem sweep_exact_and_idempotent_witness :
    ([paidBookingA, unpaidBookingA][0]? = some paidBookingA) ∧
    ∃ b2, (bookingService.updatePastBookings 20 [paidBookingA, unpaidBookingA])[0]? = some b2 ∧
      (b2.status = .past_reservation ↔
        (paidBookingA.status = .past_reservation ∨
          ((paidBookingA.status = .paid_reservation ∨
              paidBookingA.status = .cancelled_reservation) ∧
            paidBookingA.date ≤ 20))) :=
  ⟨rfl, by
    rcases (sweep_exact_and_idempotent 20 [paidBookingA, unpaidBookingA] 0
        paidBookingA rfl).2 with ⟨b2, h1, h2, _⟩
    exact ⟨b2, h1, h2⟩⟩

/-- One stock operation keeps every stock count non-negative, provided the
collection starts non-negative and a staff update writes a non-negative
value. -/
theorem applyStockOp_nonneg (catalog : List (String × Int)) (op : StockOp)
    (h0 : ∀ p ∈ catalog, 0 ≤ p.2)
    (hupd : ∀ id v, op = .upd id v → 0 ≤ v) :
    ∀ p ∈ applyStockOp catalog op, 0 ≤ p.2 := by
  intro p hp
  cases op with
  | dec id quantity =>
    simp only [applyStockOp, menuService.decreaseStock] at hp
    cases hfind : catalog.find? (fun q => decide (q.1 = id)) with
    | none =>
      rw [hfind] at hp
      exact h0 p hp
    | some s =>
      rw [hfind] at hp
      rcases List.mem_map.1 hp with ⟨q, hq, hpq⟩
      by_cases hid : q.1 = id
      · simp [hid] at hpq
        simp [← hpq]
      · simp [hid] at hpq
        subst hpq
        exact h0 q hq
  | upd id v =>
    simp only [applyStockOp, menuService.updateMenuItemStock] at hp
    rcases List.mem_map.1 hp with ⟨q, hq, hpq⟩
    by_cases hid : q.1 = id
    · simp [hid] at hpq
      simp [← hpq]
      exact hupd id v rfl
    · simp [hid] at hpq
      subst hpq
      exact h0 q hq

/-- Claim C7 counterexample: a staff stock update with a negative value is
written unvalidated, leaving a negative stock count — so the claim fails
over sequences that include such an update. -/
theorem staff_stock_update_negative_cex :
    runStockOps [("wings", (5 : Int))] [.upd "wings" (-3)] = [("wings", -3)] ∧
    (-3 : Int) < 0 := by
  decide

/-- Claim C7 amended: over every sequence of checkout-time decrements and
staff stock updates whose updated values are non-negative, all stock counts
stay non-negative (decreaseStock clamps at zero; updateMenuItemStock writes
its argument unvalidated). -/
theorem stock_nonneg_under_ops (catalog : List (String × Int)) (ops : List StockOp)
    (h0 : ∀ p ∈ catalog, 0 ≤ p.2)
    (hupd : ∀ op ∈ ops, ∀ id v, op = .upd id v → 0 ≤ v) :
    ∀ p ∈ runStockOps catalog ops, 0 ≤ p.2 := by
  induction ops generalizing catalog with
  | nil => exact h0
  | cons op rest ih =>
    intro p hp
    exact ih (applyStockOp catalog op)
      (applyStockOp_nonneg catalog op h0
        (fun id v hv => hupd op (List.mem_cons_self op rest) id v hv))
      (fun o ho id v hv => hupd o (List.mem_cons_of_mem op ho) id v hv) p hp

/-- Witness for the amended C7: a decrement past zero followed by a
non-negative staff update keeps the wings entry non-negative. -/
theorem stock_nonneg_under_ops_witness :
    0 ≤ (("wings", (2 : Int))).2 :=
  stock_nonneg_under_ops [("wings", (5 : Int))] [.dec "wings" 7, .upd "wings" 2]
    (by decide)
    (by
      intro op hop id v hv
      subst hv
      simp only [List.mem_cons, List.not_mem_nil, or_false] at hop
      rcases hop with h | h
      · cases h
      · injection h with h1 h2
        subst h2
        decide)
    ("wings", (2 : Int)) (by decide)

/-- Derived totals are consistent with the items: the stored subtotal is the
reduce over price * quantity, tax is subtotal * TAX_RATE, total their sum —
exactly what calculateCartTotals writes. -/
def totalsConsistent (c : Cart) : Prop :=
  c.subtotal = (calculateCartTotals c.items).subtotal ∧
  c.tax = c.subtotal * TAX_RATE ∧
  c.total = c.subtotal + c.tax

/-- Every reducer case re-establishes the totals invariant. -/
theorem cartReducer_totalsConsistent (c : Cart) (a : CartAction)
    (h : totalsConsistent c) : totalsConsistent (cartReducer c a) := by
  cases a with
  | addItem menuItem quantity notes selectedFlavor =>
    simp only [cartReducer]
    split
    · exact h
    · exact ⟨rfl, rfl, rfl⟩
  | removeItem itemId =>
    simp only [cartReducer]
    exact ⟨rfl, rfl, rfl⟩
  | updateQuantity itemId quantity =>
    simp only [cartReducer]
    split
    · exact h
    · split
      · exact h
      · split
        · exact ⟨rfl, rfl, rfl⟩
        · exact ⟨rfl, rfl, rfl⟩
  | updateNotes itemId notes =>
    simp only [cartReducer]
    exact ⟨rfl, rfl, rfl⟩
  | clearCart =>
    simp only [cartReducer]
    refine ⟨rfl, ?_, ?_⟩ <;> norm_num [calculateCartTotals]

/-- Claim C4 counterexample: after adding one item priced 1/20, the stored
tax is subtotal * TAX_RATE = 3/500, which is neither the claim's
round(subtotal * TAX_RATE) (= 0) nor a tax rounded to the nearest centavo
(= 1/100): the source applies no rounding at all. -/
theorem cart_tax_not_rounded_cex :
    (cartReducer initialCart (.addItem mintItem 1 "" none)).subtotal = 1 / 20 ∧
    (cartReducer initialCart (.addItem mintItem 1 "" none)).tax = 3 / 500 ∧
    ¬ (3 : ℚ) / 500 = ((round ((1 : ℚ) / 20 * TAX_RATE) : ℤ) : ℚ) ∧
    ¬ (3 : ℚ) / 500 = ((round ((1 : ℚ) / 20 * TAX_RATE * 100) : ℤ) : ℚ) / 100 := by
  have hsub : (cartReducer initialCart (.addItem mintItem 1 "" none)).subtotal = 1 / 20 := by
    norm_num [cartReducer, initialCart, calculateCartTotals, mintItem, mkItemId, findIndex]
  have htax : (cartReducer initialCart (.addItem mintItem 1 "" none)).tax = 3 / 500 := by
    norm_num [cartReducer, initialCart, calculateCartTotals, mintItem, mkItemId, findIndex, TAX_RATE]
  have hround1 : round ((1 : ℚ) / 20 * TAX_RATE) = 0 := by
    rw [round_eq]
    norm_num [TAX_RATE]
  have hround2 : round ((1 : ℚ) / 20 * TAX_RATE * 100) = 1 := by
    rw [round_eq]
    norm_num [TAX_RATE]
  refine ⟨hsub, htax, ?_, ?_⟩
  · rw [hround1]
    norm_num
  · rw [hround2]
    norm_num

/-- Claim C4 amended: for every cart reachable from the initial cart by any
action sequence, total = subtotal + tax and tax = subtotal * TAX_RATE with
TAX_RATE = 0.12 — exactly, with no rounding step — and subtotal is the sum
of price * quantity over the lines, recomputed by every mutation. -/
theorem cart_totals_invariant (acts : List CartAction) :
    totalsConsistent (runCart initialCart acts) := by
  have h0 : totalsConsistent initialCart := by
    refine ⟨?_, ?_, ?_⟩ <;> simp [initialCart, calculateCartTotals, TAX_RATE]
  rw [runCart]
  generalize initialCart = c at h0 ⊢
  induction acts generalizing c with
  | nil => exact h0
  | cons a rest ih => exact ih _ (cartReducer_totalsConsistent _ a h0)

/-- When findIndex finds nothing, find? finds nothing either. -/
theorem find?_eq_none_of_findIndex_eq_none (p : α → Bool) (l : List α)
    (h : findIndex p l = none) : l.find? p = none := by
  induction l with
  | nil => rfl
  | cons x xs ih =>
    by_cases hx : p x = true
    · simp [findIndex, hx] at h
    · have hx2 : p x = false := by simpa using hx
      simp only [findIndex, hx2, Bool.false_eq_true, if_false] at h
      rw [List.find?_cons_of_neg _ (by simp [hx2])]
      rcases hfi : findIndex p xs with _ | j
      · exact ih hfi
      · rw [hfi] at h
        cases h

/-- A successful findIndex yields the first matching element, which is also
what find? returns. -/
theorem findIndex_some_spec (p : α → Bool) (l : List α) (i : Nat)
    (h : findIndex p l = some i) :
    ∃ hi : i < l.length, p (l.get ⟨i, hi⟩) = true ∧ l.find? p = some (l.get ⟨i, hi⟩) := by
  induction l generalizing i with
  | nil => cases h
  | cons x xs ih =>
    by_cases hx : p x = true
    · simp only [findIndex, hx, if_true] at h
      injection h with h0
      subst h0
      refine ⟨by simp, by simpa using hx, ?_⟩
      rw [List.find?_cons_of_pos _ hx]
      rfl
    · have hx2 : p x = false := by simpa using hx
      simp only [findIndex, hx2, Bool.false_eq_true, if_false] at h
      rcases hfi : findIndex p xs with _ | j
      · rw [hfi] at h
        cases h
      · rw [hfi] at h
        obtain rfl : j + 1 = i := by simpa using h
        obtain ⟨hj, hpj, hfind⟩ := ih j hfi
        refine ⟨Nat.succ_lt_succ hj, hpj, ?_⟩
        rw [List.find?_cons_of_neg _ (by simp [hx2])]
        exact hfind

/-- mapAtIdx membership: an element of the result is an untouched element of
the input or the image of the element at the updated index. -/
theorem mem_mapAtIdx (l : List α) (i : Nat) (f : α → α) (x : α)
    (hx : x ∈ mapAtIdx l i f) :
    x ∈ l ∨ ∃ hi : i < l.length, x = f (l.get ⟨i, hi⟩) := by
  induction l generalizing i with
  | nil => cases hx
  | cons y ys ih =>
    cases i with
    | zero =>
      rcases List.mem_cons.1 hx with h | h
      · exact Or.inr ⟨by simp, h⟩
      · exact Or.inl (List.mem_cons_of_mem y h)
    | succ j =>
      rcases List.mem_cons.1 hx with h | h
      · exact Or.inl (h ▸ List.mem_cons_self y ys)
      · rcases ih j h with h2 | ⟨hj, heq⟩
        · exact Or.inl (List.mem_cons_of_mem y h2)
        · exact Or.inr ⟨Nat.succ_lt_succ hj, heq⟩

/-- A projection unchanged by the update function is unchanged by mapAtIdx. -/
theorem map_mapAtIdx (l : List α) (i : Nat) (f : α → α) (g : α → β)
    (hf : ∀ a, g (f a) = g a) :
    (mapAtIdx l i f).map g = l.map g := by
  induction l generalizing i with
  | nil => rfl
  | cons x xs ih =>
    cases i with
    | zero => simp [mapAtIdx, hf]
    | succ j => simp [mapAtIdx, ih]

/-- A projection unchanged by the mapped function is unchanged by map. -/
theorem map_proj_of_preserves (l : List α) (f : α → α) (g : α → β)
    (hf : ∀ a, g (f a) = g a) : (l.map f).map g = l.map g := by
  rw [List.map_map]
  exact List.map_congr_left (fun a _ => hf a)

/-- Every addItem action in the trace carries a positive quantity. -/
def addQuantitiesPositive (acts : List CartAction) : Prop :=
  ∀ a ∈ acts, ∀ m q n f, a = CartAction.addItem m q n f → 1 ≤ q

/-- No two addItem actions in the trace collide on the composite line key
with different menu items (the source concatenates menuItem.id and the
flavor with an underscore, which is not injective in general). -/
def addKeysConsistent (acts : List CartAction) : Prop :=
  ∀ a1 ∈ acts, ∀ a2 ∈ acts, ∀ m1 q1 n1 f1 m2 q2 n2 f2,
    a1 = CartAction.addItem m1 q1 n1 f1 → a2 = CartAction.addItem m2 q2 n2 f2 →
    mkItemId m1 f1 = mkItemId m2 f2 → m1 = m2

/-- Per-line invariant relative to a trace of actions: positive quantity
bounded by the line's menu item stock, the key shape of the line id, and
agreement of the stored menu item with every addItem of the same key. -/
def cartLineOk (acts : List CartAction) (line : CartItem) : Prop :=
  1 ≤ line.quantity ∧
  line.quantity ≤ line.menuItem.stockCount ∧
  line.id = mkItemId line.menuItem line.selectedFlavor ∧
  ∀ a ∈ acts, ∀ m q n f, a = CartAction.addItem m q n f →
    mkItemId m f = line.id → m = line.menuItem

/-- Cart invariant: line ids are pairwise distinct and every line is Ok. -/
def cartInv (acts : List CartAction) (c : Cart) : Prop :=
  (c.items.map (fun x => x.id)).Nodup ∧ ∀ line ∈ c.items, cartLineOk acts line

/-- One reducer step preserves the cart invariant. -/
theorem cartReducer_preserves_inv (acts : List CartAction) (c : Cart) (a : CartAction)
    (ha : a ∈ acts) (hq : addQuantitiesPositive acts) (hk : addKeysConsistent acts)
    (h : cartInv acts c) : cartInv acts (cartReducer c a) := by
  cases a with
  | addItem m q notes f =>
    have hq1 : 1 ≤ q := hq _ ha m q notes f rfl
    simp only [cartReducer]
    split
    next hguard => exact h
    next hguard =>
      split
      next i hfi =>
        obtain ⟨hi, hpi, hfind⟩ := findIndex_some_spec _ _ _ hfi
        have hidOld : (c.items.get ⟨i, hi⟩).id = mkItemId m f := by
          simpa using hpi
        have hOldOk := h.2 _ (List.get_mem c.items i hi)
        have hm : m = (c.items.get ⟨i, hi⟩).menuItem :=
          hOldOk.2.2.2 _ ha m q notes f rfl hidOld.symm
        have hguard2 : (c.items.get ⟨i, hi⟩).quantity + q ≤ m.stockCount := by
          simp only [hfind] at hguard
          omega
        constructor
        · show (List.map (fun x => x.id) (mapAtIdx c.items i
            (fun item => { item with quantity := item.quantity + q }))).Nodup
          rw [map_mapAtIdx c.items i
            (fun item => { item with quantity := item.quantity + q })
            (fun x => x.id) (fun x => rfl)]
          exact h.1
        · intro line hline
          rcases mem_mapAtIdx _ _ _ _ hline with hmem | ⟨hi2, heq⟩
          · exact h.2 line hmem
          · have heq2 : line = { c.items.get ⟨i, hi⟩ with
                quantity := (c.items.get ⟨i, hi⟩).quantity + q } := heq
            subst heq2
            refine ⟨?_, ?_, hOldOk.2.2.1, ?_⟩
            · show 1 ≤ (c.items.get ⟨i, hi⟩).quantity + q
              have := hOldOk.1
              omega
            · show (c.items.get ⟨i, hi⟩).quantity + q ≤
                (c.items.get ⟨i, hi⟩).menuItem.stockCount
              rw [← hm]
              exact hguard2
            · intro a2 ha2 m2 q2 n2 f2 hae hkey
              exact hOldOk.2.2.2 a2 ha2 m2 q2 n2 f2 hae hkey
      next hfi =>
        have hfnone := find?_eq_none_of_findIndex_eq_none _ _ hfi
        have hnotmem : ∀ x ∈ c.items, ¬ x.id = mkItemId m f := by
          intro x hx hxid
          have := List.find?_eq_none.1 hfnone x hx
          simp [hxid] at this
        constructor
        · rw [List.map_append]
          refine List.nodup_append.2 ⟨h.1, by simp, ?_⟩
          intro idval hid1 hid2
          simp only [List.map_cons, List.map_nil, List.mem_singleton] at hid2
          subst hid2
          rcases List.mem_map.1 hid1 with ⟨x, hx, hxid⟩
          exact hnotmem x hx hxid
        · intro line hline
          rcases List.mem_append.1 hline with hmem | hnew
          · exact h.2 line hmem
          · have hline2 : line =
                { id := mkItemId m f
                  menuItem := m
                  quantity := q
                  notes := notes
                  selectedFlavor := f } := by
              simpa using hnew
            subst hline2
            refine ⟨hq1, ?_, rfl, ?_⟩
            · show q ≤ m.stockCount
              simp only [hfnone] at hguard
              omega
            · intro a2 ha2 m2 q2 n2 f2 hae hkey
              exact hk a2 ha2 _ ha m2 q2 n2 f2 m q notes f hae rfl hkey
  | removeItem itemId =>
    simp only [cartReducer]
    constructor
    · exact h.1.sublist ((List.filter_sublist _).map _)
    · intro line hline
      exact h.2 line (List.mem_of_mem_filter hline)
  | updateQuantity itemId q =>
    simp only [cartReducer]
    split
    next hfind => exact h
    next cartItem hfind =>
      split
      next hguard => exact h
      next hguard =>
        split
        next hz =>
          constructor
          · exact h.1.sublist ((List.filter_sublist _).map _)
          · intro line hline
            exact h.2 line (List.mem_of_mem_filter hline)
        next hz =>
          have hcartMem := List.mem_of_find?_eq_some hfind
          have hcartId : cartItem.id = itemId := by
            simpa using List.find?_some hfind
          constructor
          · rw [map_proj_of_preserves _ _ _
              (fun x => by by_cases hx : x.id = itemId <;> simp [hx])]
            exact h.1
          · intro line hline
            rcases List.mem_map.1 hline with ⟨y, hy, hfy⟩
            have hyOk := h.2 y hy
            by_cases hyid : y.id = itemId
            · have hyeq : y = cartItem :=
                List.inj_on_of_nodup_map h.1 hy hcartMem (by rw [hyid, hcartId])
              rw [if_pos hyid] at hfy
              subst hfy
              refine ⟨?_, ?_, hyOk.2.2.1, ?_⟩
              · show 1 ≤ q
                omega
              · show q ≤ y.menuItem.stockCount
                rw [hyeq]
                omega
              · intro a2 ha2 m2 q2 n2 f2 hae hkey
                exact hyOk.2.2.2 a2 ha2 m2 q2 n2 f2 hae hkey
            · rw [if_neg hyid] at hfy
              subst hfy
              exact hyOk
  | updateNotes itemId notes =>
    simp only [cartReducer]
    constructor
    · rw [map_proj_of_preserves _ _ _
        (fun x => by by_cases hx : x.id = itemId <;> simp [hx])]
      exact h.1
    · intro line hline
      rcases List.mem_map.1 hline with ⟨y, hy, hfy⟩
      have hyOk := h.2 y hy
      by_cases hyid : y.id = itemId
      · rw [if_pos hyid] at hfy
        subst hfy
        exact ⟨hyOk.1, hyOk.2.1, hyOk.2.2.1, hyOk.2.2.2⟩
      · rw [if_neg hyid] at hfy
        subst hfy
        exact hyOk
  | clearCart =>
    exact ⟨by simp [cartReducer], by simp [cartReducer]⟩

/-- The cart invariant holds along any trace whose actions all belong to the
reference trace. -/
theorem runCart_inv_aux (acts : List CartAction)
    (hq : addQuantitiesPositive acts) (hk : addKeysConsistent acts)
    (ss : List CartAction) (c : Cart) (hss : ∀ x ∈ ss, x ∈ acts)
    (hc : cartInv acts c) : cartInv acts (ss.foldl cartReducer c) := by
  induction ss generalizing c with
  | nil => exact hc
  | cons a rest ih =>
    exact ih _ (fun x hx => hss x (List.mem_cons_of_mem a hx))
      (cartReducer_preserves_inv acts c a (hss a (List.mem_cons_self a rest)) hq hk hc)

/-- Claim C6 counterexample: dispatching ADD_ITEM with quantity 0 against an
in-stock item appends a cart line of quantity 0 — the reducer never
validates non-positive add quantities, so a reachable cart line can violate
quantity >= 1. -/
theorem cart_add_zero_quantity_cex :
    (cartReducer initialCart (.addItem wingsItem 0 "" none)).items.map
      (fun x => x.quantity) = [0] ∧
    ¬ (1 ≤ (0 : Int)) := by
  constructor
  · simp [cartReducer, initialCart, mkItemId, findIndex, wingsItem]
  · decide

/-- Claim C6 amended: for every cart reachable from the initial cart by a
trace whose addItem quantities are all >= 1 and whose addItem actions do not
collide on the composite line key with different menu items, every line has
1 <= quantity <= its menu item's stockCount; and whenever the stock guard
rejects an ADD_ITEM or UPDATE_QUANTITY request, the reducer returns the cart
unchanged, prior quantities included. -/
theorem cart_quantity_invariant_and_guard_noop (acts : List CartAction)
    (hq : addQuantitiesPositive acts) (hk : addKeysConsistent acts) :
    (∀ line ∈ (runCart initialCart acts).items,
      1 ≤ line.quantity ∧ line.quantity ≤ line.menuItem.stockCount) ∧
    (∀ (c : Cart) (m : MenuItem) (q : Int) (n : String) (f : Option String),
      q > m.stockCount -
        (match c.items.find? (fun item => decide (item.id = mkItemId m f)) with
          | some item => item.quantity
          | none => 0) →
      cartReducer c (.addItem m q n f) = c) ∧
    (∀ (c : Cart) (itemId : String) (q : Int) (cartItem : CartItem),
      c.items.find? (fun item => decide (item.id = itemId)) = some cartItem →
      q > cartItem.menuItem.stockCount →
      cartReducer c (.updateQuantity itemId q) = c) := by
  refine ⟨?_, ?_, ?_⟩
  · have h0 : cartInv acts initialCart := by
      constructor <;> simp [initialCart]
    have hinv := runCart_inv_aux acts hq hk acts initialCart (fun _ hx => hx) h0
    intro line hline
    have := hinv.2 line hline
    exact ⟨this.1, this.2.1⟩
  · intro c m q n f hguard
    simp only [cartReducer]
    rw [if_pos hguard]
  · intro c itemId q cartItem hfind hguard
    simp only [cartReducer, hfind]
    rw [if_pos hguard]

/-- The cart line left by adding two wings and then setting the quantity to
four. -/
def wingsLine4 : CartItem :=
  { id := "wings", menuItem := wingsItem, quantity := 4, notes := "",
    selectedFlavor := none }

/-- Witness for the amended C6 on a concrete two-action trace: the single
resulting line has quantity four, between one and the stock of five. -/
theorem cart_quantity_invariant_and_guard_noop_witness :
    1 ≤ wingsLine4.quantity ∧ wingsLine4.quantity ≤ wingsLine4.menuItem.stockCount :=
  (cart_quantity_invariant_and_guard_noop
    [.addItem wingsItem 2 "" none, .updateQuantity "wings" 4]
    (by
      intro a ha m q n f hv
      subst hv
      simp only [List.mem_cons, List.not_mem_nil, or_false] at ha
      rcases ha with h | h
      · injection h with h1 h2
        subst h2
        decide
      · cases h)
    (by
      intro a1 h1 a2 h2 m1 q1 n1 f1 m2 q2 n2 f2 he1 he2 hkey
      subst he1
      subst he2
      simp only [List.mem_cons, List.not_mem_nil, or_false] at h1 h2
      rcases h1 with h1 | h1
      · rcases h2 with h2 | h2
        · injection h1 with h1a h1b h1c h1d
          injection h2 with h2a h2b h2c h2d
          rw [h1a, h2a]
        · cases h2
      · cases h1)).1
    wingsLine4 (by decide)

end RoyalWings
